import Mathlib

/-!
Verification development for the cosmos-terminal PTY core
(src-tauri/src/pty/{shell,platform,session,manager}.rs and
src-tauri/src/commands/pty_commands.rs).

The Rust code is shallowly embedded: filesystem and OS effects become
explicit function-valued parameters, the per-session worker threads become
pure functions over finite observation traces, and machine integers become
Nat (all sizes involved stay far below any overflow boundary, and the Rust
code itself uses usize arithmetic that cannot overflow on these values).
Error strings produced with format! in Rust are represented by an inductive
error type whose constructors are documented with the exact message family
they stand for.
-/

/-- Error classes of the PTY subsystem.  Each constructor stands for one
family of Rust error strings:
`invalidDimensions` = "Invalid terminal dimensions ...",
`invalidWorkingDirectory` = "Working directory does not exist ...",
`invalidShellPath` = "Shell path cannot be empty" / "Invalid shell path ..."
  / "Shell path is not a file ...",
`shellNotAllowed` = "Shell must be an absolute path or a known shell name ...",
`shellNotFound` = "Shell not found ..." / "Shell not found in PATH ...",
`spawnFailed` = "Failed to open PTY ..." / "Failed to spawn shell ..."
  / "Failed to clone master reader ..." / "Failed to take master writer ...",
`sessionNotFound` = "Session not found ...",
`sessionClosed` = "Session closed",
`invalidSessionId` = "Invalid session id". -/
inductive PtyError where
  | invalidDimensions
  | invalidWorkingDirectory
  | invalidShellPath
  | shellNotAllowed
  | shellNotFound
  | spawnFailed
  | sessionNotFound
  | sessionClosed
  | invalidSessionId
deriving DecidableEq

/-- Metadata of one filesystem entry, as observed through std::fs::metadata:
whether it is a regular file, and whether any of the unix execute bits
(mode & 0o111) is set. -/
structure FileMeta where
  isFile : Bool
  execBit : Bool
deriving DecidableEq

/-- Abstract filesystem state, the ambient effect of shell.rs:
`canonicalize p` models std::fs::canonicalize (follows symlinks; `none` is
an Err result), `metaOf p` models std::fs::metadata (`none` is an Err
result). -/
structure Fs where
  canonicalize : String → Option String
  metaOf : String → Option FileMeta

/-- ALLOWED_NAMES from shell.rs. -/
def ALLOWED_NAMES : List String :=
  ["powershell.exe", "pwsh.exe", "cmd.exe", "bash.exe",
   "bash", "zsh", "fish", "sh", "dash", "pwsh", "powershell", "nu", "elvish"]

/-- Rust str::trim over the character list of the string (the shell
identifiers involved are ASCII, for which Char.isWhitespace coincides with
the Rust whitespace predicate). -/
def strTrim (s : String) : String :=
  String.mk
    (((s.data.dropWhile Char.isWhitespace).reverse.dropWhile
        Char.isWhitespace).reverse)

/-- Rust str::eq_ignore_ascii_case: both sides lowered ASCII-wise.  Lean
Char.toLower only maps the ASCII range, matching the Rust semantics. -/
def eqIgnoreAsciiCase (a b : String) : Bool :=
  a.data.map Char.toLower == b.data.map Char.toLower

/-- is_allowed_shell_name from shell.rs. -/
def is_allowed_shell_name (name : String) : Bool :=
  ALLOWED_NAMES.any (fun s => eqIgnoreAsciiCase name s)

/-- Path::is_absolute on the unix cfg branch: the path starts with the root
separator. -/
def isAbsolutePath (p : String) : Bool :=
  match p.data with
  | [] => false
  | c :: _ => c = ('/')

/-- Path::join of a search directory and a candidate file name (unix). -/
def joinPath (dir name : String) : String :=
  dir ++ ("/") ++ name

/-- is_executable_file from shell.rs (unix cfg branch): metadata resolves,
names a regular file, and mode & 0o111 is nonzero. -/
def is_executable_file (fs : Fs) (path : String) : Bool :=
  match fs.metaOf path with
  | none => false
  | some meta => meta.isFile && meta.execBit

/-- resolve_shell_in_path_with from shell.rs, unix cfg branch: the candidate
list is just the bare name, each PATH directory is probed in order, and the
first executable hit is canonicalized when possible (falling back to the
uncanonicalized candidate). -/
def resolve_shell_in_path_with (fs : Fs) (name : String) (dirs : List String) :
    Option String :=
  match dirs with
  | [] => none
  | dir :: rest =>
    let candidate := joinPath dir name
    if is_executable_file fs candidate then
      some ((fs.canonicalize candidate).getD candidate)
    else
      resolve_shell_in_path_with fs name rest

/-- resolve_shell_in_path from shell.rs: reads PATH (`none` models an unset
PATH variable, in which case resolution fails). -/
def resolve_shell_in_path (fs : Fs) (pathVar : Option (List String))
    (name : String) : Option String :=
  match pathVar with
  | none => none
  | some dirs => resolve_shell_in_path_with fs name dirs

/-- normalize_shell_path from shell.rs.
`none` input passes through as `.ok none` (no shell requested).
Otherwise: trim; empty fails invalidShellPath; an absolute path is
canonicalized (failure: shellNotFound), its metadata is read (failure:
invalidShellPath) and must denote a regular file (failure:
invalidShellPath, the "Shell path is not a file" message); a bare name must
be allow-listed (failure: shellNotAllowed) and resolvable from PATH
(failure: shellNotFound). -/
def normalize_shell_path (fs : Fs) (pathVar : Option (List String))
    (shell_path : Option String) : Except PtyError (Option String) :=
  match shell_path with
  | none => .ok none
  | some raw =>
    let shell := strTrim raw
    if shell = ("") then .error .invalidShellPath
    else if isAbsolutePath shell then
      match fs.canonicalize shell with
      | none => .error .shellNotFound
      | some canonical =>
        match fs.metaOf canonical with
        | none => .error .invalidShellPath
        | some meta =>
          if meta.isFile then .ok (some canonical)
          else .error .invalidShellPath
    else if is_allowed_shell_name shell then
      match resolve_shell_in_path fs pathVar shell with
      | none => .error .shellNotFound
      | some resolved => .ok (some resolved)
    else .error .shellNotAllowed

/-- default_shell from platform.rs, non-windows cfg branch: the SHELL
environment variable (given here as `envShell`, `none` when unset) is passed
through normalize_shell_path; on any failure the literal fallback
"/bin/zsh" is returned. -/
def default_shell (fs : Fs) (pathVar : Option (List String))
    (envShell : Option String) : String :=
  ((envShell.bind
      (fun s => (normalize_shell_path fs pathVar (some s)).toOption)).join).getD
    ("/bin/zsh")

/-- Abstract OS interface for SessionHandle::spawn in session.rs:
whether the requested working directory is a directory, whether
native_pty_system().openpty succeeds, whether slave.spawn_command succeeds,
and what child.process_id() reports (`none` models a None return, which the
Rust code maps to pid 0 with unwrap_or(0)). -/
structure OsApi where
  cwdIsDir : String → Bool
  openPtyOk : Bool
  spawnOk : Bool
  childPid : Option Nat

/-- The state of one SessionHandle from session.rs.  The Mutex<Option<..>>
slots collapse to Bool presence flags (`true` = the Option is Some), the
AtomicBool alive flag to a Bool, and the three JoinHandle slots to presence
flags. -/
structure SessionHandle where
  hasWriter : Bool
  hasMaster : Bool
  alive : Bool
  hasReaderThread : Bool
  hasOutputThread : Bool
  hasExitThread : Bool
  pid : Nat
deriving DecidableEq

/-- One observable step of SessionHandle::kill in session.rs, in program
order: the Relaxed store of false into alive, the two Option::take releases,
and the three JoinHandle joins. -/
inductive KillStep where
  | storeAlive (b : Bool)
  | releaseWriter
  | releaseMaster
  | joinReader
  | joinOutput
  | joinExit
deriving DecidableEq

/-- SessionHandle::kill from session.rs: store alive := false, then take
the writer, then take the master PTY, then join the reader, output and exit
threads in that order.  A take or join on an already empty slot emits no
release/join step (Option::take of None, `if let Some` failing). -/
def SessionHandle.kill (s : SessionHandle) : SessionHandle × List KillStep :=
  let events :=
    [KillStep.storeAlive false]
    ++ (if s.hasWriter then [KillStep.releaseWriter] else [])
    ++ (if s.hasMaster then [KillStep.releaseMaster] else [])
    ++ (if s.hasReaderThread then [KillStep.joinReader] else [])
    ++ (if s.hasOutputThread then [KillStep.joinOutput] else [])
    ++ (if s.hasExitThread then [KillStep.joinExit] else [])
  ({ s with
      alive := false, hasWriter := false, hasMaster := false,
      hasReaderThread := false, hasOutputThread := false,
      hasExitThread := false },
   events)

/-- SessionHandle::write from session.rs: fails with "Session closed" when
the writer slot is empty, otherwise forwards the bytes to the PTY master
(the write itself is effect-only and always succeeds in this model). -/
def SessionHandle.write (s : SessionHandle) (_data : List Nat) :
    Except PtyError Unit :=
  if s.hasWriter then .ok () else .error .sessionClosed

/-- SessionHandle::resize from session.rs: fails with "Session closed" when
the master slot is empty, otherwise applies the new PtySize. -/
def SessionHandle.resize (s : SessionHandle) (_rows _cols : Nat) :
    Except PtyError Unit :=
  if s.hasMaster then .ok () else .error .sessionClosed

/-- SessionHandle::spawn from session.rs: validate that the working
directory exists and is a directory, open the PTY pair, fall back to
default_shell when no shell was passed, spawn the child, read its pid with
unwrap_or(0), and start the three worker threads with alive initialized to
true. -/
def SessionHandle.spawn (os : OsApi) (fs : Fs) (pathVar : Option (List String))
    (envShell : Option String) (shell_path : Option String) (cwd : String)
    (_rows _cols : Nat) : Except PtyError SessionHandle :=
  if ¬ os.cwdIsDir cwd then .error .invalidWorkingDirectory
  else if ¬ os.openPtyOk then .error .spawnFailed
  else
    let _shell := shell_path.getD (default_shell fs pathVar envShell)
    if ¬ os.spawnOk then .error .spawnFailed
    else
      .ok { hasWriter := true, hasMaster := true, alive := true,
            hasReaderThread := true, hasOutputThread := true,
            hasExitThread := true, pid := os.childPid.getD 0 }

/-- The Registry: the SessionManager sessions map from manager.rs, modelled
as a lookup function (HashMap<String, SessionHandle> semantics). -/
def Registry := String → Option SessionHandle

/-- Empty Registry (SessionManager::new). -/
def Registry.empty : Registry := fun _ => none

/-- HashMap::insert on the Registry. -/
def Registry.insert (reg : Registry) (id : String) (h : SessionHandle) :
    Registry :=
  fun x => if x = id then some h else reg x

/-- HashMap::remove on the Registry. -/
def Registry.erase (reg : Registry) (id : String) : Registry :=
  fun x => if x = id then none else reg x

/-- PtySessionInfo from models.rs: the (id, pid) pair returned to callers. -/
structure PtySessionInfo where
  id : String
  pid : Nat
deriving DecidableEq

/-- SessionManager::create_session from manager.rs: mint a fresh id (the
Uuid::new_v4 draw is passed in as `freshId`), spawn the handle, record the
pid, insert the handle under the new id, return the info.  On spawn failure
the map is untouched. -/
def SessionManager.create_session (os : OsApi) (fs : Fs)
    (pathVar : Option (List String)) (envShell : Option String)
    (freshId : String) (reg : Registry) (shell_path : Option String)
    (cwd : String) (rows cols : Nat) :
    Except PtyError PtySessionInfo × Registry :=
  match SessionHandle.spawn os fs pathVar envShell shell_path cwd rows cols with
  | .error e => (.error e, reg)
  | .ok handle =>
    (.ok { id := freshId, pid := handle.pid }, reg.insert freshId handle)

/-- SessionManager::kill_session from manager.rs: remove the id from the
map (failure: "Session not found"), then run SessionHandle::kill on the
removed handle, whose steps are returned as the teardown trace.  A miss
performs no teardown step. -/
def SessionManager.kill_session (reg : Registry) (session_id : String) :
    Except PtyError Unit × Registry × List KillStep :=
  match reg session_id with
  | none => (.error .sessionNotFound, reg, [])
  | some handle =>
    (.ok (), reg.erase session_id, (handle.kill).2)

/-- SessionManager::with_session from manager.rs: look the id up and
delegate (failure: "Session not found"). -/
def SessionManager.with_session (reg : Registry) (session_id : String)
    (f : SessionHandle → Except PtyError Unit) : Except PtyError Unit :=
  match reg session_id with
  | none => .error .sessionNotFound
  | some handle => f handle

/-- SessionManager::write_to_session from manager.rs. -/
def SessionManager.write_to_session (reg : Registry) (session_id : String)
    (data : List Nat) : Except PtyError Unit :=
  SessionManager.with_session reg session_id (fun h => h.write data)

/-- SessionManager::resize_session from manager.rs. -/
def SessionManager.resize_session (reg : Registry) (session_id : String)
    (rows cols : Nat) : Except PtyError Unit :=
  SessionManager.with_session reg session_id (fun h => h.resize rows cols)

/-- validate_dimensions from pty_commands.rs: rows and cols must lie in
[1, 500]. -/
def validate_dimensions (rows cols : Nat) : Except PtyError Unit :=
  if rows = 0 || cols = 0 || rows > 500 || cols > 500 then
    .error .invalidDimensions
  else .ok ()

/-- The externally observable stages of the create_session command, in the
order the Rust code performs them: the dimension check, the shell
resolution, the two OS allocations inside SessionHandle::spawn, and the
Registry insertion. -/
inductive CreateStage where
  | checkDims
  | resolveShell
  | openPty
  | spawnChild
  | insertEntry
deriving DecidableEq

/-- create_session from pty_commands.rs composed with
SessionManager::create_session and SessionHandle::spawn, instrumented with
the stage trace: validate_dimensions first, then normalize_shell_path, then
spawn (cwd check, PTY open, child spawn), then the map insertion.  Each
short-circuit return leaves the Registry untouched and truncates the
trace. -/
def create_session_command (os : OsApi) (fs : Fs)
    (pathVar : Option (List String)) (envShell : Option String)
    (freshId : String) (reg : Registry) (shell_path : Option String)
    (project_path : String) (rows cols : Nat) :
    Except PtyError PtySessionInfo × Registry × List CreateStage :=
  match validate_dimensions rows cols with
  | .error e => (.error e, reg, [.checkDims])
  | .ok _ =>
    match normalize_shell_path fs pathVar shell_path with
    | .error e => (.error e, reg, [.checkDims, .resolveShell])
    | .ok resolved =>
      if ¬ os.cwdIsDir project_path then
        (.error .invalidWorkingDirectory, reg, [.checkDims, .resolveShell])
      else if ¬ os.openPtyOk then
        (.error .spawnFailed, reg, [.checkDims, .resolveShell, .openPty])
      else
        let _shell := resolved.getD (default_shell fs pathVar envShell)
        if ¬ os.spawnOk then
          (.error .spawnFailed, reg,
           [.checkDims, .resolveShell, .openPty, .spawnChild])
        else
          let handle : SessionHandle :=
            { hasWriter := true, hasMaster := true, alive := true,
              hasReaderThread := true, hasOutputThread := true,
              hasExitThread := true, pid := os.childPid.getD 0 }
          (.ok { id := freshId, pid := handle.pid },
           reg.insert freshId handle,
           [.checkDims, .resolveShell, .openPty, .spawnChild, .insertEntry])

/-- The spawn stages of create_session_command agree with
SessionHandle.spawn routed through SessionManager.create_session: the
instrumented command returns the same result and Registry as the plain
composition from pty_commands.rs. -/
theorem create_session_command_spec (os : OsApi) (fs : Fs)
    (pathVar : Option (List String)) (envShell : Option String)
    (freshId : String) (reg : Registry) (shell_path : Option String)
    (project_path : String) (rows cols : Nat) :
    ((create_session_command os fs pathVar envShell freshId reg shell_path
        project_path rows cols).1,
     (create_session_command os fs pathVar envShell freshId reg shell_path
        project_path rows cols).2.1) =
      match validate_dimensions rows cols with
      | .error e => (.error e, reg)
      | .ok _ =>
        match normalize_shell_path fs pathVar shell_path with
        | .error e => (.error e, reg)
        | .ok resolved =>
          SessionManager.create_session os fs pathVar envShell freshId reg
            resolved project_path rows cols := by
  unfold create_session_command SessionManager.create_session
    SessionHandle.spawn
  cases hdim : validate_dimensions rows cols with
  | error e => simp
  | ok u =>
    cases hsh : normalize_shell_path fs pathVar shell_path with
    | error e => simp
    | ok resolved =>
      by_cases hcwd : os.cwdIsDir project_path
      · by_cases hpty : os.openPtyOk
        · by_cases hsp : os.spawnOk
          · simp [hcwd, hpty, hsp]
          · simp [hcwd, hpty, hsp]
        · simp [hcwd, hpty]
      · simp [hcwd]

/-- Rust u8::is_ascii_hexdigit, over the Char holding that byte. -/
def isAsciiHexDigit (b : Char) : Bool :=
  b.isDigit || (('a') ≤ b && b ≤ ('f')) || (('A') ≤ b && b ≤ ('F'))

/-- validate_session_id from pty_commands.rs: exactly 36 bytes, hyphens at
offsets 8, 13, 18, 23, ASCII hex digits everywhere else (a uuid string is
pure ASCII, so Char positions coincide with byte positions). -/
def validate_session_id (session_id : String) : Except PtyError Unit :=
  let bytes := session_id.toList
  if bytes.length ≠ 36 then .error .invalidSessionId
  else if (List.range 36).all (fun i =>
      let b := bytes.getD i (' ')
      if i = 8 ∨ i = 13 ∨ i = 18 ∨ i = 23 then b = ('-')
      else isAsciiHexDigit b) then .ok ()
  else .error .invalidSessionId

/-- IPC_BATCH_MAX_BYTES from session.rs. -/
def IPC_BATCH_MAX_BYTES : Nat := 128 * 1024

/-- The fixed reader buffer size from reader_loop in session.rs
(`let mut buf = [0u8; 16384]`); every chunk the reader forwards has at most
this many bytes. -/
def READER_BUF_BYTES : Nat := 16384

/-- One result of a channel receive inside output_loop in session.rs:
a chunk of raw PTY bytes (bytes as Nat values below 256), a
RecvTimeoutError::Timeout, or a RecvTimeoutError::Disconnected. -/
inductive RecvEvent where
  | chunk (c : List Nat)
  | timeout
  | disconnected
deriving DecidableEq

/-- output_loop from session.rs as a machine over the receive trace.
State `none`: blocked in the outer blocking recv (a timeout cannot occur
there and is treated as continued waiting).  State `some b`: inside the
inner batching loop with accumulated batch `b`; the size check
`batch.len() >= IPC_BATCH_MAX_BYTES` runs before every inner receive, so a
batch at or above the cap is delivered immediately.  Returns the list of
raw delivered batches (encoding is applied at the send site, see
sentPayloads) and the pending batch still being accumulated when the trace
ends.  A disconnect delivers the pending batch and stops the loop for
good. -/
def outputRun : Option (List Nat) → List RecvEvent → List (List Nat) × Option (List Nat)
  | st, [] => ([], st)
  | none, .chunk c :: rest =>
    if IPC_BATCH_MAX_BYTES ≤ c.length then
      let r := outputRun none rest
      (c :: r.1, r.2)
    else outputRun (some c) rest
  | none, .timeout :: rest => outputRun none rest
  | none, .disconnected :: _ => ([], none)
  | some b, .chunk c :: rest =>
    let b2 := b ++ c
    if IPC_BATCH_MAX_BYTES ≤ b2.length then
      let r := outputRun none rest
      (b2 :: r.1, r.2)
    else outputRun (some b2) rest
  | some b, .timeout :: rest =>
    let r := outputRun none rest
    (b :: r.1, r.2)
  | some b, .disconnected :: _ => ([b], none)

/-- The receive events of a trace projected to chunk sizes, for size-level
reasoning about outputRun. -/
inductive RecvLenEvent where
  | chunk (n : Nat)
  | timeout
  | disconnected
deriving DecidableEq

/-- Size projection of a receive event. -/
def RecvEvent.toLen : RecvEvent → RecvLenEvent
  | .chunk c => .chunk c.length
  | .timeout => .timeout
  | .disconnected => .disconnected

/-- outputRun projected to sizes: the same machine where a batch is just
its byte count. -/
def outputRunLen : Option Nat → List RecvLenEvent → List Nat × Option Nat
  | st, [] => ([], st)
  | none, .chunk n :: rest =>
    if IPC_BATCH_MAX_BYTES ≤ n then
      let r := outputRunLen none rest
      (n :: r.1, r.2)
    else outputRunLen (some n) rest
  | none, .timeout :: rest => outputRunLen none rest
  | none, .disconnected :: _ => ([], none)
  | some b, .chunk n :: rest =>
    let b2 := b + n
    if IPC_BATCH_MAX_BYTES ≤ b2 then
      let r := outputRunLen none rest
      (b2 :: r.1, r.2)
    else outputRunLen (some b2) rest
  | some b, .timeout :: rest =>
    let r := outputRunLen none rest
    (b :: r.1, r.2)
  | some b, .disconnected :: _ => ([b], none)

/-- outputRunLen is the length image of outputRun. -/
theorem outputRun_len (st : Option (List Nat)) (evs : List RecvEvent) :
    outputRunLen (st.map List.length) (evs.map RecvEvent.toLen) =
      ((outputRun st evs).1.map List.length,
       (outputRun st evs).2.map List.length) := by
  induction evs generalizing st with
  | nil => cases st <;> simp [outputRun, outputRunLen]
  | cons e rest ih =>
    cases st with
    | none =>
      cases e with
      | chunk c =>
        by_cases hc : IPC_BATCH_MAX_BYTES ≤ c.length
        · simpa [outputRun, outputRunLen, RecvEvent.toLen, hc]
            using congrArg (fun p => (c.length :: p.1, p.2)) (ih none)
        · simpa [outputRun, outputRunLen, RecvEvent.toLen, hc]
            using ih (some c)
      | timeout =>
        simpa [outputRun, outputRunLen, RecvEvent.toLen] using ih none
      | disconnected =>
        simp [outputRun, outputRunLen, RecvEvent.toLen]
    | some b =>
      cases e with
      | chunk c =>
        by_cases hc : IPC_BATCH_MAX_BYTES ≤ (b ++ c).length
        · have hc2 : IPC_BATCH_MAX_BYTES ≤ b.length + c.length := by
            simpa using hc
          simpa [outputRun, outputRunLen, RecvEvent.toLen, hc, hc2]
            using congrArg (fun p => ((b ++ c).length :: p.1, p.2)) (ih none)
        · have hc2 : ¬ IPC_BATCH_MAX_BYTES ≤ b.length + c.length := by
            simpa using hc
          simpa [outputRun, outputRunLen, RecvEvent.toLen, hc, hc2]
            using ih (some (b ++ c))
      | timeout =>
        simpa [outputRun, outputRunLen, RecvEvent.toLen]
          using congrArg (fun p => (b.length :: p.1, p.2)) (ih none)
      | disconnected =>
        simp [outputRun, outputRunLen, RecvEvent.toLen]

/-- The raw chunks carried by a receive trace, in arrival order, up to the
first disconnect (after which the channel yields nothing further). -/
def chunksOf : List RecvEvent → List (List Nat)
  | [] => []
  | .chunk c :: rest => c :: chunksOf rest
  | .timeout :: rest => chunksOf rest
  | .disconnected :: _ => []

/-- Conservation: the bytes of the delivered batches followed by the bytes
still pending are exactly the bytes of the initial partial batch followed by
all chunk bytes of the trace, in order.  Nothing is lost, duplicated or
reordered by the batching loop. -/
theorem outputRun_flatten (st : Option (List Nat)) (evs : List RecvEvent) :
    (outputRun st evs).1.flatten ++ ((outputRun st evs).2.getD []) =
      st.getD [] ++ (chunksOf evs).flatten := by
  induction evs generalizing st with
  | nil => cases st <;> simp [outputRun, chunksOf]
  | cons e rest ih =>
    cases st with
    | none =>
      cases e with
      | chunk c =>
        by_cases hc : IPC_BATCH_MAX_BYTES ≤ c.length
        · simp [outputRun, chunksOf, hc, List.append_assoc, ih none]
        · simpa [outputRun, chunksOf, hc] using ih (some c)
      | timeout => simpa [outputRun, chunksOf] using ih none
      | disconnected => simp [outputRun, chunksOf]
    | some b =>
      cases e with
      | chunk c =>
        by_cases hc : IPC_BATCH_MAX_BYTES ≤ b.length + c.length
        · simp [outputRun, chunksOf, hc, List.append_assoc, ih none]
        · simpa [outputRun, chunksOf, hc, List.append_assoc] using ih (some (b ++ c))
      | timeout =>
        simp [outputRun, chunksOf, List.append_assoc, ih none]
      | disconnected => simp [outputRun, chunksOf]

/-- Size bound: if every chunk of the trace is at most `K` bytes with
`K ≤ IPC_BATCH_MAX_BYTES`, and the pending batch (when present) is still
below the cap, then every delivered batch stays below
IPC_BATCH_MAX_BYTES + K: the pre-receive size check stops accumulation the
moment the cap is reached, so the cap can be overshot by at most one
chunk. -/
theorem outputRun_batch_size_bound (K : Nat) (hK : K ≤ IPC_BATCH_MAX_BYTES)
    (st : Option (List Nat)) (evs : List RecvEvent)
    (hst : ∀ b0, st = some b0 → b0.length < IPC_BATCH_MAX_BYTES)
    (hch : ∀ c, RecvEvent.chunk c ∈ evs → c.length ≤ K) :
    ∀ b ∈ (outputRun st evs).1, b.length < IPC_BATCH_MAX_BYTES + K := by
  have hMAXpos : 0 < IPC_BATCH_MAX_BYTES := by norm_num [IPC_BATCH_MAX_BYTES]
  induction evs generalizing st with
  | nil => cases st <;> simp [outputRun]
  | cons e rest ih =>
    have hch1 : ∀ c, RecvEvent.chunk c ∈ rest → c.length ≤ K := by
      intro c hc
      exact hch c (List.mem_cons_of_mem _ hc)
    cases st with
    | none =>
      cases e with
      | chunk c =>
        have hcK : c.length ≤ K := hch c (List.mem_cons_self _ _)
        by_cases hc : IPC_BATCH_MAX_BYTES ≤ c.length
        · intro b hb
          simp only [outputRun, if_pos hc] at hb
          rcases List.mem_cons.mp hb with hb | hb
          · subst hb; omega
          · exact ih none (by intro b0 h0; cases h0) hch1 b hb
        · intro b hb
          simp only [outputRun, if_neg hc] at hb
          refine ih (some c) ?_ hch1 b hb
          intro b0 h0
          cases h0
          omega
      | timeout =>
        intro b hb
        simp only [outputRun] at hb
        exact ih none (by intro b0 h0; cases h0) hch1 b hb
      | disconnected =>
        intro b hb
        simp [outputRun] at hb
    | some b0 =>
      have hb0 : b0.length < IPC_BATCH_MAX_BYTES := hst b0 rfl
      cases e with
      | chunk c =>
        have hcK : c.length ≤ K := hch c (List.mem_cons_self _ _)
        by_cases hc : IPC_BATCH_MAX_BYTES ≤ (b0 ++ c).length
        · intro b hb
          simp only [outputRun, if_pos hc] at hb
          rcases List.mem_cons.mp hb with hb | hb
          · subst hb
            simp only [List.length_append]
            omega
          · exact ih none (by intro x hx; cases hx) hch1 b hb
        · intro b hb
          simp only [outputRun, if_neg hc] at hb
          refine ih (some (b0 ++ c)) ?_ hch1 b hb
          intro x hx
          cases hx
          simpa using hc
      | timeout =>
        intro b hb
        simp only [outputRun] at hb
        rcases List.mem_cons.mp hb with hb | hb
        · subst hb; omega
        · exact ih none (by intro x hx; cases hx) hch1 b hb
      | disconnected =>
        intro b hb
        simp only [outputRun] at hb
        simp at hb
        subst hb
        omega

/-- The standard base64 alphabet, index order as in RFC 4648, the table the
base64 crate STANDARD engine uses. -/
def b64Alphabet : List Char :=
  ['A', 'B', 'C', 'D', 'E', 'F', 'G', 'H', 'I', 'J', 'K', 'L', 'M',
   'N', 'O', 'P', 'Q', 'R', 'S', 'T', 'U', 'V', 'W', 'X', 'Y', 'Z',
   'a', 'b', 'c', 'd', 'e', 'f', 'g', 'h', 'i', 'j', 'k', 'l', 'm',
   'n', 'o', 'p', 'q', 'r', 's', 't', 'u', 'v', 'w', 'x', 'y', 'z',
   '0', '1', '2', '3', '4', '5', '6', '7', '8', '9', '+', '/']

/-- Alphabet character of a 6-bit value. -/
def b64Char (n : Nat) : Char :=
  b64Alphabet.getD n ('A')

/-- 6-bit value of an alphabet character. -/
def b64Val (ch : Char) : Nat :=
  b64Alphabet.indexOf ch

/-- base64 STANDARD encoding (with padding) of a byte sequence, as performed
by base64::engine::general_purpose::STANDARD.encode at the send site of
output_loop: three bytes become four alphabet characters; a final single
byte becomes two characters and "==", a final pair three characters and
"=". -/
def b64EncodeChars : List Nat → List Char
  | [] => []
  | [a] =>
    [b64Char (a / 4), b64Char (a % 4 * 16), '=', '=']
  | [a, b] =>
    [b64Char (a / 4), b64Char (a % 4 * 16 + b / 16), b64Char (b % 16 * 4), '=']
  | a :: b :: c :: rest =>
    b64Char (a / 4) :: b64Char (a % 4 * 16 + b / 16) ::
      b64Char (b % 16 * 4 + c / 64) :: b64Char (c % 64) ::
      b64EncodeChars rest

/-- base64 STANDARD decoding of a padded character sequence (the quantifier
side of the round-trip statement): four characters at a time, with the
padding forms handled first. -/
def b64DecodeChars : List Char → List Nat
  | w :: x :: y :: z :: rest =>
    if y = ('=') then
      [b64Val w * 4 + b64Val x / 16]
    else if z = ('=') then
      [b64Val w * 4 + b64Val x / 16, b64Val x % 16 * 16 + b64Val y / 4]
    else
      (b64Val w * 4 + b64Val x / 16) ::
        (b64Val x % 16 * 16 + b64Val y / 4) ::
        (b64Val y % 4 * 64 + b64Val z) ::
        b64DecodeChars rest
  | _ => []

/-- Decoding inverts the alphabet on 6-bit values. -/
theorem b64Val_b64Char : ∀ n, n < 64 → b64Val (b64Char n) = n := by decide

/-- No alphabet character is the padding character. -/
theorem b64Char_ne_pad : ∀ n, n < 64 → b64Char n ≠ ('=') := by decide

/-- Round trip: decoding the encoding of any byte sequence returns it
unchanged. -/
theorem b64_roundtrip : ∀ bs : List Nat, (∀ b ∈ bs, b < 256) →
    b64DecodeChars (b64EncodeChars bs) = bs
  | [], _ => by simp [b64EncodeChars, b64DecodeChars]
  | [a], h => by
    have ha : a < 256 := h a (by simp)
    have h1 : a / 4 < 64 := by omega
    have h2 : a % 4 * 16 < 64 := by omega
    simp only [b64EncodeChars, b64DecodeChars, eq_self_iff_true, ite_true,
      b64Val_b64Char _ h1, b64Val_b64Char _ h2, List.cons.injEq, and_true]
    omega
  | [a, b], h => by
    have ha : a < 256 := h a (by simp)
    have hb : b < 256 := h b (by simp)
    have h1 : a / 4 < 64 := by omega
    have h2 : a % 4 * 16 + b / 16 < 64 := by omega
    have h3 : b % 16 * 4 < 64 := by omega
    have hy : b64Char (b % 16 * 4) ≠ ('=') := b64Char_ne_pad _ h3
    simp only [b64EncodeChars, b64DecodeChars, if_neg hy, eq_self_iff_true,
      ite_true, b64Val_b64Char _ h1, b64Val_b64Char _ h2, b64Val_b64Char _ h3,
      List.cons.injEq, and_true]
    omega
  | a :: b :: c :: rest, h => by
    have ha : a < 256 := h a (by simp)
    have hb : b < 256 := h b (by simp)
    have hc : c < 256 := h c (by simp)
    have h1 : a / 4 < 64 := by omega
    have h2 : a % 4 * 16 + b / 16 < 64 := by omega
    have h3 : b % 16 * 4 + c / 64 < 64 := by omega
    have h4 : c % 64 < 64 := by omega
    have hy : b64Char (b % 16 * 4 + c / 64) ≠ ('=') := b64Char_ne_pad _ h3
    have hz : b64Char (c % 64) ≠ ('=') := b64Char_ne_pad _ h4
    have hrest : b64DecodeChars (b64EncodeChars rest) = rest :=
      b64_roundtrip rest (by
        intro x hx
        exact h x (by simp [hx]))
    simp only [b64EncodeChars, b64DecodeChars, if_neg hy, if_neg hz,
      b64Val_b64Char _ h1, b64Val_b64Char _ h2, b64Val_b64Char _ h3,
      b64Val_b64Char _ h4, hrest, List.cons.injEq, and_true]
    omega

/-- The encoded payload string crossing the Tauri channel for one raw
batch. -/
def b64EncodeStr (bytes : List Nat) : String :=
  String.mk (b64EncodeChars bytes)

/-- The decoding of a payload string back to raw bytes. -/
def b64DecodeStr (s : String) : List Nat :=
  b64DecodeChars s.data

/-- The payload strings output_loop delivers to the output channel for a
given receive trace: the raw batches of outputRun, each base64-encoded at
the send site. -/
def sentPayloads (evs : List RecvEvent) : List String :=
  (outputRun none evs).1.map b64EncodeStr

/-- One result of the blocking PTY read in reader_loop from session.rs:
Ok(0) end-of-stream, Ok(n) with the n bytes read into the 16384-byte
buffer, or Err. -/
inductive ReadResult where
  | eofRead
  | dataRead (c : List Nat)
  | errRead
deriving DecidableEq

/-- reader_loop from session.rs over a finite read trace: forward every
nonempty chunk to the batcher queue, stop on end-of-stream, read error, or
a failed send (queue consumer gone, given by `sendOk`), and finally store
false into the alive flag.  Returns the chunks actually forwarded and the
value stored into alive at exit (always false).  A trace that ends before
any stop condition leaves the thread still blocked in read: `none`. -/
def reader_loop (sendOk : Bool) : List ReadResult → Option (List (List Nat) × Bool)
  | [] => none
  | .eofRead :: _ => some ([], false)
  | .errRead :: _ => some ([], false)
  | .dataRead c :: rest =>
    if sendOk then
      match reader_loop sendOk rest with
      | none => none
      | some (cs, fin) => some (c :: cs, fin)
    else some ([], false)

/-- Every chunk reader_loop forwards is one full or partial buffer read,
so at most READER_BUF_BYTES bytes, provided each OS read fits the buffer
(which the fixed `[0u8; 16384]` buffer enforces). -/
theorem reader_loop_chunk_size (sendOk : Bool) (reads : List ReadResult)
    (hreads : ∀ c, ReadResult.dataRead c ∈ reads → c.length ≤ READER_BUF_BYTES)
    (cs : List (List Nat)) (fin : Bool)
    (hrun : reader_loop sendOk reads = some (cs, fin)) :
    ∀ c ∈ cs, c.length ≤ READER_BUF_BYTES := by
  induction reads generalizing cs fin with
  | nil => simp [reader_loop] at hrun
  | cons r rest ih =>
    cases r with
    | eofRead =>
      simp only [reader_loop] at hrun
      cases hrun
      simp
    | errRead =>
      simp only [reader_loop] at hrun
      cases hrun
      simp
    | dataRead c =>
      by_cases hs : sendOk
      · simp only [reader_loop, if_pos hs] at hrun
        cases hrec : reader_loop sendOk rest with
        | none => rw [hrec] at hrun; cases hrun
        | some p =>
          obtain ⟨cs0, fin0⟩ := p
          rw [hrec] at hrun
          obtain ⟨rfl, rfl⟩ := Prod.mk.inj (Option.some.inj hrun)
          intro x hx
          rcases List.mem_cons.mp hx with hx | hx
          · subst hx
            exact hreads _ (List.mem_cons_self _ _)
          · exact ih (fun d hd => hreads d (List.mem_cons_of_mem _ hd)) cs0 fin0
              hrec x hx
      · simp only [reader_loop, if_neg hs] at hrun
        cases hrun
        simp

/-- reader_loop always stores false into alive when it finishes. -/
theorem reader_loop_stores_false (sendOk : Bool) (reads : List ReadResult)
    (cs : List (List Nat)) (fin : Bool)
    (hrun : reader_loop sendOk reads = some (cs, fin)) : fin = false := by
  induction reads generalizing cs fin with
  | nil => simp [reader_loop] at hrun
  | cons r rest ih =>
    cases r with
    | eofRead => simp only [reader_loop] at hrun; cases hrun; rfl
    | errRead => simp only [reader_loop] at hrun; cases hrun; rfl
    | dataRead c =>
      by_cases hs : sendOk
      · simp only [reader_loop, if_pos hs] at hrun
        cases hrec : reader_loop sendOk rest with
        | none => rw [hrec] at hrun; cases hrun
        | some p =>
          obtain ⟨cs0, fin0⟩ := p
          rw [hrec] at hrun
          obtain ⟨rfl, rfl⟩ := Prod.mk.inj (Option.some.inj hrun)
          exact ih cs0 fin0 hrec
      · simp only [reader_loop, if_neg hs] at hrun
        cases hrun
        rfl

/-- Result of one child.try_wait() call in the exit watcher thread of
session.rs: Ok(Some(status)), Err, or Ok(None). -/
inductive TryWaitResult where
  | exited
  | errored
  | running
deriving DecidableEq

/-- One iteration observation of the first watcher loop: the Relaxed load
of the alive flag, then (when alive still holds) the try_wait result. -/
structure PollObs where
  aliveLoad : Bool
  tw : TryWaitResult
deriving DecidableEq

/-- One iteration observation of the grace-period loop: the try_wait
result and whether Instant::now() has reached the five-second deadline. -/
structure GraceObs where
  tw : TryWaitResult
  pastDeadline : Bool
deriving DecidableEq

/-- Externally visible actions of the exit watcher thread. -/
inductive WatcherEvent where
  | sleepPoll
  | forceKill
  | storeAlive (b : Bool)
  | sendExit (b : Bool)
deriving DecidableEq

/-- The first loop of the exit watcher thread in session.rs: while the
alive flag holds, poll try_wait; exit status or a wait error breaks the
loop, otherwise sleep 100ms and poll again.  `none` when the observation
trace runs out while the loop still spins. -/
def exitPollLoop : List PollObs → Option (List WatcherEvent)
  | [] => none
  | p :: rest =>
    if p.aliveLoad = false then some []
    else
      match p.tw with
      | .exited => some []
      | .errored => some []
      | .running => (exitPollLoop rest).map (fun evs => .sleepPoll :: evs)

/-- The grace-period loop of the exit watcher thread in session.rs: poll
try_wait; exit status or error breaks; a still-running child past the
deadline is force-killed and waited, then the loop breaks; otherwise sleep
and poll again. -/
def exitGraceLoop : List GraceObs → Option (List WatcherEvent)
  | [] => none
  | g :: rest =>
    match g.tw with
    | .exited => some []
    | .errored => some []
    | .running =>
      if g.pastDeadline then some [.forceKill]
      else (exitGraceLoop rest).map (fun evs => .sleepPoll :: evs)

/-- The whole exit watcher thread body from session.rs: first loop, grace
loop, then unconditionally store false into alive and send the single exit
notification (value true) on the exit channel.  `none` when the trace ends
before the thread reaches the end. -/
def exitWatcher (l1 : List PollObs) (l2 : List GraceObs) :
    Option (List WatcherEvent) :=
  match exitPollLoop l1 with
  | none => none
  | some e1 =>
    match exitGraceLoop l2 with
    | none => none
    | some e2 => some (e1 ++ e2 ++ [.storeAlive false, .sendExit true])

/-- The first watcher loop emits only sleep events. -/
theorem exitPollLoop_events (l1 : List PollObs) (evs : List WatcherEvent)
    (h : exitPollLoop l1 = some evs) : ∀ e ∈ evs, e = WatcherEvent.sleepPoll := by
  induction l1 generalizing evs with
  | nil => simp [exitPollLoop] at h
  | cons p rest ih =>
    by_cases ha : p.aliveLoad = false
    · simp only [exitPollLoop, if_pos ha] at h
      cases h
      simp
    · simp only [exitPollLoop, if_neg ha] at h
      cases htw : p.tw with
      | exited => rw [htw] at h; cases h; simp
      | errored => rw [htw] at h; cases h; simp
      | running =>
        rw [htw] at h
        cases hrec : exitPollLoop rest with
        | none => rw [hrec] at h; cases h
        | some evs0 =>
          rw [hrec] at h
          cases h
          intro e he
          rcases List.mem_cons.mp he with he | he
          · exact he
          · exact ih evs0 hrec e he

/-- The grace loop emits only sleep and force-kill events. -/
theorem exitGraceLoop_events (l2 : List GraceObs) (evs : List WatcherEvent)
    (h : exitGraceLoop l2 = some evs) :
    ∀ e ∈ evs, e = WatcherEvent.sleepPoll ∨ e = WatcherEvent.forceKill := by
  induction l2 generalizing evs with
  | nil => simp [exitGraceLoop] at h
  | cons g rest ih =>
    cases htw : g.tw with
    | exited => simp only [exitGraceLoop, htw] at h; cases h; simp
    | errored => simp only [exitGraceLoop, htw] at h; cases h; simp
    | running =>
      simp only [exitGraceLoop, htw] at h
      by_cases hd : g.pastDeadline
      · rw [if_pos hd] at h
        cases h
        simp
      · rw [if_neg hd] at h
        cases hrec : exitGraceLoop rest with
        | none => rw [hrec] at h; cases h
        | some evs0 =>
          rw [hrec] at h
          cases h
          intro e he
          rcases List.mem_cons.mp he with he | he
          · exact Or.inl he
          · exact ih evs0 hrec e he

/-- The first watcher loop completes as soon as any observed iteration
shows the liveness flag cleared (explicit kill or reader-side store) or a
non-running try_wait result (natural exit or wait error). -/
theorem exitPollLoop_terminates (l1 : List PollObs)
    (hstop : ∃ p ∈ l1, p.aliveLoad = false ∨ p.tw ≠ TryWaitResult.running) :
    exitPollLoop l1 ≠ none := by
  induction l1 with
  | nil => simp at hstop
  | cons p rest ih =>
    by_cases ha : p.aliveLoad = false
    · simp [exitPollLoop, ha]
    · cases htw : p.tw with
      | exited => simp [exitPollLoop, ha, htw]
      | errored => simp [exitPollLoop, ha, htw]
      | running =>
        obtain ⟨q, hq, hs⟩ := hstop
        rcases List.mem_cons.mp hq with rfl | hq
        · rcases hs with h | h
          · exact absurd h ha
          · exact absurd htw h
        · have hrest := ih ⟨q, hq, hs⟩
          simp [exitPollLoop, ha, htw, Option.map_eq_none']
          exact hrest

/-- The grace loop completes as soon as any observed iteration shows a
non-running try_wait result or the elapsed deadline (which the fixed
five-second timeout guarantees in real time). -/
theorem exitGraceLoop_terminates (l2 : List GraceObs)
    (hstop : ∃ g ∈ l2, g.tw ≠ TryWaitResult.running ∨ g.pastDeadline = true) :
    exitGraceLoop l2 ≠ none := by
  induction l2 with
  | nil => simp at hstop
  | cons g rest ih =>
    cases htw : g.tw with
    | exited => simp [exitGraceLoop, htw]
    | errored => simp [exitGraceLoop, htw]
    | running =>
      by_cases hd : g.pastDeadline = true
      · simp [exitGraceLoop, htw, hd]
      · obtain ⟨q, hq, hs⟩ := hstop
        rcases List.mem_cons.mp hq with rfl | hq
        · rcases hs with h | h
          · exact absurd htw h
          · exact absurd h hd
        · have hrest := ih ⟨q, hq, hs⟩
          simp [exitGraceLoop, htw, hd, Option.map_eq_none']
          exact hrest

/-- The externally visible sink events of one session: encoded output
batches delivered on the output channel by the batcher thread, and the
boolean exit notification delivered on the exit channel by the exit
watcher thread. -/
inductive SinkEvent where
  | outputBatch (payload : String)
  | exitNotice (b : Bool)
deriving DecidableEq

/-- merged is one scheduler interleaving of the two per-thread sink event
sequences.  In session.rs the batcher and the exit watcher are separate
threads writing to separate channels with no synchronization between them
(the watcher sends the exit notification without waiting for the batcher),
so the scheduler can realize any interleaving of their events. -/
inductive Interleaving :
    List SinkEvent → List SinkEvent → List SinkEvent → Prop where
  | nil : Interleaving [] [] []
  | left (x : SinkEvent) {xs ys zs : List SinkEvent} :
      Interleaving xs ys zs → Interleaving (x :: xs) ys (x :: zs)
  | right (y : SinkEvent) {xs ys zs : List SinkEvent} :
      Interleaving xs ys zs → Interleaving xs (y :: ys) (y :: zs)

/-- An interleaving carries exactly the occurrences of both sides. -/
theorem Interleaving.count_eq {xs ys zs : List SinkEvent}
    (h : Interleaving xs ys zs) (a : SinkEvent) :
    zs.count a = xs.count a + ys.count a := by
  induction h with
  | nil => simp
  | left x h ih =>
    simp only [List.count_cons, ih]
    omega
  | right y h ih =>
    simp only [List.count_cons, ih]
    omega

/-- Membership in an interleaving comes from one of the two sides. -/
theorem Interleaving.mem_iff {xs ys zs : List SinkEvent}
    (h : Interleaving xs ys zs) (a : SinkEvent) :
    a ∈ zs ↔ a ∈ xs ∨ a ∈ ys := by
  induction h with
  | nil => simp
  | left x h ih =>
    simp only [List.mem_cons, ih]
    tauto
  | right y h ih =>
    simp only [List.mem_cons, ih]
    tauto

/-- An interleaving preserves the order of its left side. -/
theorem Interleaving.sublist_left {xs ys zs : List SinkEvent}
    (h : Interleaving xs ys zs) : List.Sublist xs zs := by
  induction h with
  | nil => exact List.Sublist.refl _
  | left x h ih => exact ih.cons₂ _
  | right y h ih => exact ih.cons _

/-- C1 (amended): on every completed execution of the exit watcher thread,
the thread delivers exactly one exit notification on the exit sink (never
two), every exit notification carries the value true, and the alive store
of false immediately precedes that single notification: nothing but sleeps
and the force-kill can occur before it and nothing occurs after it in the
watcher's own event sequence.  Completion (never zero notifications) holds
on every execution path of the claim: each loop completes as soon as an
iteration observes a cleared liveness flag (explicit kill, or reader-side
clear after a read error), a non-running try_wait (natural exit or wait
error), or the elapsed grace deadline.  In the merged per-session sink
stream, every scheduler interleaving of the batch events with the exit
notification contains exactly one exit event, all exit events carry true,
and the batch order is preserved — but the exit event is not necessarily
last (see the counterexample: a batch flush can be scheduled after it). -/
theorem claim_C1_exit_watcher_single_notification :
    (∀ (l1 : List PollObs) (l2 : List GraceObs) (evs : List WatcherEvent),
      exitWatcher l1 l2 = some evs →
      evs.count (WatcherEvent.sendExit true) = 1 ∧
      (∀ b, WatcherEvent.sendExit b ∈ evs → b = true) ∧
      ∃ pre, evs = pre ++ [WatcherEvent.storeAlive false, WatcherEvent.sendExit true] ∧
        ∀ e ∈ pre, e = WatcherEvent.sleepPoll ∨ e = WatcherEvent.forceKill) ∧
    (∀ l1 : List PollObs,
      (∃ p ∈ l1, p.aliveLoad = false ∨ p.tw ≠ TryWaitResult.running) →
      exitPollLoop l1 ≠ none) ∧
    (∀ l2 : List GraceObs,
      (∃ g ∈ l2, g.tw ≠ TryWaitResult.running ∨ g.pastDeadline = true) →
      exitGraceLoop l2 ≠ none) ∧
    (∀ (revs : List RecvEvent) (merged : List SinkEvent),
      Interleaving ((sentPayloads revs).map SinkEvent.outputBatch)
        [SinkEvent.exitNotice true] merged →
      merged.count (SinkEvent.exitNotice true) = 1 ∧
      (∀ b, SinkEvent.exitNotice b ∈ merged → b = true) ∧
      List.Sublist ((sentPayloads revs).map SinkEvent.outputBatch) merged) := by
  refine ⟨?_, exitPollLoop_terminates, exitGraceLoop_terminates, ?_⟩
  case refine_2 =>
    intro revs merged hint
    refine ⟨?_, ?_, hint.sublist_left⟩
    · rw [hint.count_eq]
      have hzero : ((sentPayloads revs).map SinkEvent.outputBatch).count
          (SinkEvent.exitNotice true) = 0 := by
        rw [List.count_eq_zero]
        intro hmem
        obtain ⟨p, hp, hbad⟩ := List.mem_map.mp hmem
        cases hbad
      rw [hzero]
      decide
    · intro b hb
      rcases (hint.mem_iff _).mp hb with hm | hm
      · obtain ⟨p, hp, hbad⟩ := List.mem_map.mp hm
        cases hbad
      · simp only [List.mem_singleton, SinkEvent.exitNotice.injEq] at hm
        exact hm
  intro l1 l2 evs hrun
  unfold exitWatcher at hrun
  cases h1 : exitPollLoop l1 with
  | none => rw [h1] at hrun; cases hrun
  | some e1 =>
    rw [h1] at hrun
    cases h2 : exitGraceLoop l2 with
    | none => rw [h2] at hrun; cases hrun
    | some e2 =>
      rw [h2] at hrun
      obtain rfl := (Option.some.inj hrun).symm
      have he1 := exitPollLoop_events l1 e1 h1
      have he2 := exitGraceLoop_events l2 e2 h2
      have hne1 : WatcherEvent.sendExit true ∉ e1 := by
        intro hmem
        cases he1 _ hmem
      have hne2 : WatcherEvent.sendExit true ∉ e2 := by
        intro hmem
        rcases he2 _ hmem with h | h <;> cases h
      refine ⟨?_, ?_, e1 ++ e2, by rw [List.append_assoc], ?_⟩
      · rw [List.count_append, List.count_append,
          List.count_eq_zero.mpr hne1, List.count_eq_zero.mpr hne2]
        decide
      · intro b hb
        rcases List.mem_append.mp hb with hb | hb
        · rcases List.mem_append.mp hb with hb | hb
          · cases he1 _ hb
          · rcases he2 _ hb with h | h <;> cases h
        · rcases List.mem_cons.mp hb with hb | hb
          · cases hb
          · rcases List.mem_cons.mp hb with hb | hb
            · cases hb; rfl
            · simp at hb
      · intro e he
        rcases List.mem_append.mp he with he | he
        · exact Or.inl (he1 _ he)
        · exact he2 _ he

/-- Witness for C1 (amended): a child observed as exited on the first poll
of each loop completes the watcher with the two-event trace, on which the
conclusion holds; the same observations witness the termination
conditions; and the batch-first interleaving of a one-batch run with the
exit notification witnesses the merged-stream clause. -/
theorem claim_C1_witness :
    (([WatcherEvent.storeAlive false, WatcherEvent.sendExit true] :
        List WatcherEvent).count (WatcherEvent.sendExit true) = 1 ∧
      (∀ b, WatcherEvent.sendExit b ∈
          [WatcherEvent.storeAlive false, WatcherEvent.sendExit true] →
        b = true) ∧
      ∃ pre, [WatcherEvent.storeAlive false, WatcherEvent.sendExit true] =
          pre ++ [WatcherEvent.storeAlive false, WatcherEvent.sendExit true] ∧
        ∀ e ∈ pre, e = WatcherEvent.sleepPoll ∨ e = WatcherEvent.forceKill) ∧
    exitPollLoop [{ aliveLoad := true, tw := TryWaitResult.exited }] ≠ none ∧
    exitGraceLoop [{ tw := TryWaitResult.exited, pastDeadline := false }] ≠
      none ∧
    (([SinkEvent.outputBatch (b64EncodeStr [72, 105]),
        SinkEvent.exitNotice true] : List SinkEvent).count
        (SinkEvent.exitNotice true) = 1 ∧
      (∀ b, SinkEvent.exitNotice b ∈
          [SinkEvent.outputBatch (b64EncodeStr [72, 105]),
           SinkEvent.exitNotice true] → b = true) ∧
      List.Sublist
        ((sentPayloads [RecvEvent.chunk [72, 105],
            RecvEvent.disconnected]).map SinkEvent.outputBatch)
        [SinkEvent.outputBatch (b64EncodeStr [72, 105]),
         SinkEvent.exitNotice true]) :=
  ⟨claim_C1_exit_watcher_single_notification.1
    [{ aliveLoad := true, tw := TryWaitResult.exited }]
    [{ tw := TryWaitResult.exited, pastDeadline := false }]
    [WatcherEvent.storeAlive false, WatcherEvent.sendExit true] rfl,
   claim_C1_exit_watcher_single_notification.2.1
    [{ aliveLoad := true, tw := TryWaitResult.exited }]
    ⟨{ aliveLoad := true, tw := TryWaitResult.exited }, by decide, by decide⟩,
   claim_C1_exit_watcher_single_notification.2.2.1
    [{ tw := TryWaitResult.exited, pastDeadline := false }]
    ⟨{ tw := TryWaitResult.exited, pastDeadline := false }, by decide,
     by decide⟩,
   claim_C1_exit_watcher_single_notification.2.2.2
    [RecvEvent.chunk [72, 105], RecvEvent.disconnected]
    [SinkEvent.outputBatch (b64EncodeStr [72, 105]), SinkEvent.exitNotice true]
    (Interleaving.left _ (Interleaving.right _ Interleaving.nil))⟩

/-- C1 counterexample: the exit notification need not terminate the merged
per-session sink stream.  The watcher sends on the exit channel without
waiting for the batcher (session.rs line 130 happens-before nothing in
output_loop), so the scheduler can deliver a trailing output batch after
the exit notice: on a one-chunk run, the interleaving that delivers the
exit notice first and the batch second is legal, and it does not end with
the exit event. -/
theorem claim_C1_counterexample :
    ¬ (∀ merged : List SinkEvent,
        Interleaving
          ((sentPayloads [RecvEvent.chunk [65], RecvEvent.disconnected]).map
            SinkEvent.outputBatch)
          [SinkEvent.exitNotice true] merged →
        ∃ pre, merged = pre ++ [SinkEvent.exitNotice true]) := by
  intro hclaim
  obtain ⟨pre, hpre⟩ := hclaim
    [SinkEvent.exitNotice true, SinkEvent.outputBatch (b64EncodeStr [65])]
    (Interleaving.right _ (Interleaving.left _ Interleaving.nil))
  cases pre with
  | nil => simp at hpre
  | cons a tail =>
    cases tail with
    | nil => simp at hpre
    | cons b t2 => simp at hpre

/-- C2 counterexample: for a fully running session, the kill step trace of
the code is storeAlive false, releaseWriter, releaseMaster, joins; the
claim that both releases strictly precede the alive store is false on this
concrete session. -/
theorem claim_C2_counterexample :
    ¬ ((SessionHandle.kill
          { hasWriter := true, hasMaster := true, alive := true,
            hasReaderThread := true, hasOutputThread := true,
            hasExitThread := true, pid := 777 }).2.indexOf
          KillStep.releaseWriter <
        (SessionHandle.kill
          { hasWriter := true, hasMaster := true, alive := true,
            hasReaderThread := true, hasOutputThread := true,
            hasExitThread := true, pid := 777 }).2.indexOf
          (KillStep.storeAlive false) ∧
      (SessionHandle.kill
          { hasWriter := true, hasMaster := true, alive := true,
            hasReaderThread := true, hasOutputThread := true,
            hasExitThread := true, pid := 777 }).2.indexOf
          KillStep.releaseMaster <
        (SessionHandle.kill
          { hasWriter := true, hasMaster := true, alive := true,
            hasReaderThread := true, hasOutputThread := true,
            hasExitThread := true, pid := 777 }).2.indexOf
          (KillStep.storeAlive false)) := by
  decide

/-- C2 (amended): kill on a running session first clears the liveness
flag, then releases the writer handle, then the master handle, and then
joins the reader, output and exit threads, in exactly that order; after
kill the flag is cleared and both handles are released. -/
theorem claim_C2_kill_order (s : SessionHandle)
    (hW : s.hasWriter = true) (hM : s.hasMaster = true)
    (hR : s.hasReaderThread = true) (hO : s.hasOutputThread = true)
    (hE : s.hasExitThread = true) :
    (SessionHandle.kill s).2 =
      [KillStep.storeAlive false, KillStep.releaseWriter,
       KillStep.releaseMaster, KillStep.joinReader, KillStep.joinOutput,
       KillStep.joinExit] ∧
    (SessionHandle.kill s).1.alive = false ∧
    (SessionHandle.kill s).1.hasWriter = false ∧
    (SessionHandle.kill s).1.hasMaster = false := by
  simp [SessionHandle.kill, hW, hM, hR, hO, hE]

/-- Witness for C2 (amended) at a concrete running session. -/
theorem claim_C2_witness :
    (SessionHandle.kill
        { hasWriter := true, hasMaster := true, alive := true,
          hasReaderThread := true, hasOutputThread := true,
          hasExitThread := true, pid := 7 }).2 =
      [KillStep.storeAlive false, KillStep.releaseWriter,
       KillStep.releaseMaster, KillStep.joinReader, KillStep.joinOutput,
       KillStep.joinExit] ∧
    (SessionHandle.kill
        { hasWriter := true, hasMaster := true, alive := true,
          hasReaderThread := true, hasOutputThread := true,
          hasExitThread := true, pid := 7 }).1.alive = false ∧
    (SessionHandle.kill
        { hasWriter := true, hasMaster := true, alive := true,
          hasReaderThread := true, hasOutputThread := true,
          hasExitThread := true, pid := 7 }).1.hasWriter = false ∧
    (SessionHandle.kill
        { hasWriter := true, hasMaster := true, alive := true,
          hasReaderThread := true, hasOutputThread := true,
          hasExitThread := true, pid := 7 }).1.hasMaster = false :=
  claim_C2_kill_order
    { hasWriter := true, hasMaster := true, alive := true,
      hasReaderThread := true, hasOutputThread := true,
      hasExitThread := true, pid := 7 } rfl rfl rfl rfl rfl

/-- C4: for any rows, cols with rows = 0, cols = 0, rows > 500 or
cols > 500, the create command fails with invalidDimensions, the Registry
is returned untouched, and the stage trace is only the dimension check:
shell resolution, PTY allocation, child spawn and map insertion never
run. -/
theorem claim_C4_invalid_dimensions (os : OsApi) (fs : Fs)
    (pathVar : Option (List String)) (envShell : Option String)
    (freshId : String) (reg : Registry) (shellReq : Option String)
    (cwd : String) (rows cols : Nat)
    (hbad : rows = 0 ∨ cols = 0 ∨ 500 < rows ∨ 500 < cols) :
    create_session_command os fs pathVar envShell freshId reg shellReq cwd
        rows cols =
      (.error .invalidDimensions, reg, [CreateStage.checkDims]) ∧
    CreateStage.resolveShell ∉
      (create_session_command os fs pathVar envShell freshId reg shellReq cwd
        rows cols).2.2 ∧
    CreateStage.openPty ∉
      (create_session_command os fs pathVar envShell freshId reg shellReq cwd
        rows cols).2.2 ∧
    CreateStage.spawnChild ∉
      (create_session_command os fs pathVar envShell freshId reg shellReq cwd
        rows cols).2.2 ∧
    CreateStage.insertEntry ∉
      (create_session_command os fs pathVar envShell freshId reg shellReq cwd
        rows cols).2.2 := by
  have hval : validate_dimensions rows cols = .error .invalidDimensions := by
    unfold validate_dimensions
    split
    · rfl
    · next hcond =>
      exfalso
      simp only [Bool.or_eq_true, decide_eq_true_eq] at hcond
      omega
  have heq : create_session_command os fs pathVar envShell freshId reg
      shellReq cwd rows cols =
      (.error .invalidDimensions, reg, [CreateStage.checkDims]) := by
    unfold create_session_command
    rw [hval]
  refine ⟨heq, ?_, ?_, ?_, ?_⟩ <;> rw [heq] <;> simp

/-- Witness for C4 at rows = 0. -/
theorem claim_C4_witness :
    create_session_command
        { cwdIsDir := fun _ => true, openPtyOk := true, spawnOk := true,
          childPid := some 1 }
        { canonicalize := fun _ => none, metaOf := fun _ => none }
        none none ("id-0") Registry.empty none ("/") 0 80 =
      (.error .invalidDimensions, Registry.empty, [CreateStage.checkDims]) ∧
    CreateStage.resolveShell ∉
      (create_session_command
        { cwdIsDir := fun _ => true, openPtyOk := true, spawnOk := true,
          childPid := some 1 }
        { canonicalize := fun _ => none, metaOf := fun _ => none }
        none none ("id-0") Registry.empty none ("/") 0 80).2.2 ∧
    CreateStage.openPty ∉
      (create_session_command
        { cwdIsDir := fun _ => true, openPtyOk := true, spawnOk := true,
          childPid := some 1 }
        { canonicalize := fun _ => none, metaOf := fun _ => none }
        none none ("id-0") Registry.empty none ("/") 0 80).2.2 ∧
    CreateStage.spawnChild ∉
      (create_session_command
        { cwdIsDir := fun _ => true, openPtyOk := true, spawnOk := true,
          childPid := some 1 }
        { canonicalize := fun _ => none, metaOf := fun _ => none }
        none none ("id-0") Registry.empty none ("/") 0 80).2.2 ∧
    CreateStage.insertEntry ∉
      (create_session_command
        { cwdIsDir := fun _ => true, openPtyOk := true, spawnOk := true,
          childPid := some 1 }
        { canonicalize := fun _ => none, metaOf := fun _ => none }
        none none ("id-0") Registry.empty none ("/") 0 80).2.2 :=
  claim_C4_invalid_dimensions
    { cwdIsDir := fun _ => true, openPtyOk := true, spawnOk := true,
      childPid := some 1 }
    { canonicalize := fun _ => none, metaOf := fun _ => none }
    none none ("id-0") Registry.empty none ("/") 0 80 (Or.inl rfl)

/-- C5: killing a present id succeeds and removes the id from the Registry
map, so a second kill of the same id, and a write or resize addressed to
it, fail with sessionNotFound and perform no teardown step; and on any id
absent from the map (never issued or already killed), kill returns
sessionNotFound leaving the map untouched with an empty teardown trace,
and write and resize return sessionNotFound. -/
theorem claim_C5_kill_idempotence :
    (∀ (reg : Registry) (id : String) (h : SessionHandle), reg id = some h →
      (SessionManager.kill_session reg id).1 = .ok () ∧
      (SessionManager.kill_session reg id).2.1 id = none ∧
      SessionManager.kill_session (SessionManager.kill_session reg id).2.1 id =
        (.error .sessionNotFound, (SessionManager.kill_session reg id).2.1, []) ∧
      (∀ data, SessionManager.write_to_session
          (SessionManager.kill_session reg id).2.1 id data =
          .error .sessionNotFound) ∧
      (∀ r c, SessionManager.resize_session
          (SessionManager.kill_session reg id).2.1 id r c =
          .error .sessionNotFound)) ∧
    (∀ (reg : Registry) (id : String), reg id = none →
      SessionManager.kill_session reg id = (.error .sessionNotFound, reg, []) ∧
      (∀ data, SessionManager.write_to_session reg id data =
        .error .sessionNotFound) ∧
      (∀ r c, SessionManager.resize_session reg id r c =
        .error .sessionNotFound)) := by
  constructor
  · intro reg id h hreg
    have hkill : SessionManager.kill_session reg id =
        (.ok (), reg.erase id, (h.kill).2) := by
      unfold SessionManager.kill_session
      rw [hreg]
    have herase : (reg.erase id) id = none := by
      unfold Registry.erase
      simp
    refine ⟨by rw [hkill], by simp only [hkill]; exact herase, ?_, ?_, ?_⟩
    · simp only [hkill]
      unfold SessionManager.kill_session
      rw [herase]
    · intro data
      simp only [hkill]
      unfold SessionManager.write_to_session SessionManager.with_session
      rw [herase]
    · intro r c
      simp only [hkill]
      unfold SessionManager.resize_session SessionManager.with_session
      rw [herase]
  · intro reg id hreg
    refine ⟨?_, ?_, ?_⟩
    · unfold SessionManager.kill_session
      rw [hreg]
    · intro data
      unfold SessionManager.write_to_session SessionManager.with_session
      rw [hreg]
    · intro r c
      unfold SessionManager.resize_session SessionManager.with_session
      rw [hreg]

/-- Witness for C5: a one-entry Registry with a live session under a
concrete uuid, and the empty Registry for the absent-id part. -/
theorem claim_C5_witness :
    ((SessionManager.kill_session
        (Registry.insert Registry.empty ("11111111-2222-3333-4444-555555555555")
          { hasWriter := true, hasMaster := true, alive := true,
            hasReaderThread := true, hasOutputThread := true,
            hasExitThread := true, pid := 42 })
        ("11111111-2222-3333-4444-555555555555")).1 = .ok () ∧
      (SessionManager.kill_session
        (Registry.insert Registry.empty ("11111111-2222-3333-4444-555555555555")
          { hasWriter := true, hasMaster := true, alive := true,
            hasReaderThread := true, hasOutputThread := true,
            hasExitThread := true, pid := 42 })
        ("11111111-2222-3333-4444-555555555555")).2.1
        ("11111111-2222-3333-4444-555555555555") = none) ∧
    SessionManager.kill_session Registry.empty ("no-such-id") =
      (.error .sessionNotFound, Registry.empty, []) := by
  have h1 := claim_C5_kill_idempotence.1
    (Registry.insert Registry.empty ("11111111-2222-3333-4444-555555555555")
      { hasWriter := true, hasMaster := true, alive := true,
        hasReaderThread := true, hasOutputThread := true,
        hasExitThread := true, pid := 42 })
    ("11111111-2222-3333-4444-555555555555")
    { hasWriter := true, hasMaster := true, alive := true,
      hasReaderThread := true, hasOutputThread := true,
      hasExitThread := true, pid := 42 }
    (by unfold Registry.insert Registry.empty; simp)
  have h2 := claim_C5_kill_idempotence.2 Registry.empty ("no-such-id") rfl
  exact ⟨⟨h1.1, h1.2.1⟩, h2.1⟩

/-- A successful PATH search names a directory of the search path whose
candidate is an existing executable regular file, and returns that
candidate canonicalized when possible. -/
theorem resolve_shell_in_path_with_spec (fs : Fs) (name : String)
    (dirs : List String) (out : String)
    (h : resolve_shell_in_path_with fs name dirs = some out) :
    ∃ dir ∈ dirs, is_executable_file fs (joinPath dir name) = true ∧
      out = (fs.canonicalize (joinPath dir name)).getD (joinPath dir name) := by
  induction dirs with
  | nil => simp [resolve_shell_in_path_with] at h
  | cons dir rest ih =>
    by_cases hex : is_executable_file fs (joinPath dir name) = true
    · refine ⟨dir, by simp, hex, ?_⟩
      simp only [resolve_shell_in_path_with, if_pos hex] at h
      exact (Option.some.inj h).symm
    · simp only [resolve_shell_in_path_with, if_neg hex] at h
      obtain ⟨d, hd, hexd, hout⟩ := ih h
      exact ⟨d, List.mem_cons_of_mem _ hd, hexd, hout⟩

/-- The filesystem with no entries at all: every canonicalize and every
metadata call fails. -/
def trivFs : Fs :=
  { canonicalize := fun _ => none, metaOf := fun _ => none }

/-- A filesystem holding exactly one plain (non-executable) regular
file. -/
def c6Fs : Fs :=
  { canonicalize := fun p =>
      if p = ("/opt/plainfile") then some ("/opt/plainfile") else none,
    metaOf := fun p =>
      if p = ("/opt/plainfile") then some { isFile := true, execBit := false }
      else none }

/-- C6 counterexample: the claim asserts every successful resolution
returns an executable path, but the absolute-path branch of
normalize_shell_path never checks the execute bits: on a filesystem whose
only entry is a plain regular file without execute permission, resolving
that absolute path succeeds although the result is not executable. -/
theorem claim_C6_counterexample :
    ¬ (∀ (fs : Fs) (pv : Option (List String)) (raw out : String),
        normalize_shell_path fs pv (some raw) = .ok (some out) →
        is_executable_file fs out = true) := by
  intro hclaim
  have hexec := hclaim c6Fs none ("/opt/plainfile") ("/opt/plainfile") rfl
  exact absurd hexec (by decide)

/-- C6 (amended): the full case analysis of normalize_shell_path.
Empty or whitespace-only input fails invalidShellPath; a bare name outside
the case-insensitive allow-list fails shellNotAllowed; an allow-listed bare
name with no executable hit in the search path fails shellNotFound; an
absolute path that does not canonicalize, has no readable metadata, or is
not a regular file fails shellNotFound or invalidShellPath; a successful
absolute resolution returns the canonicalized path of an existing regular
file (executability deliberately unchecked by the code); a successful
bare-name resolution returns a search-path candidate that is an existing
executable regular file, canonicalized when possible. -/
theorem claim_C6_resolver_case_analysis :
    (∀ (fs : Fs) (pv : Option (List String)) (raw : String),
      strTrim raw = ("") →
      normalize_shell_path fs pv (some raw) = .error .invalidShellPath) ∧
    (∀ (fs : Fs) (pv : Option (List String)) (raw : String),
      strTrim raw ≠ ("") → isAbsolutePath (strTrim raw) = false →
      is_allowed_shell_name (strTrim raw) = false →
      normalize_shell_path fs pv (some raw) = .error .shellNotAllowed) ∧
    (∀ (fs : Fs) (pv : Option (List String)) (raw : String),
      strTrim raw ≠ ("") → isAbsolutePath (strTrim raw) = false →
      is_allowed_shell_name (strTrim raw) = true →
      resolve_shell_in_path fs pv (strTrim raw) = none →
      normalize_shell_path fs pv (some raw) = .error .shellNotFound) ∧
    (∀ (fs : Fs) (pv : Option (List String)) (raw : String),
      strTrim raw ≠ ("") → isAbsolutePath (strTrim raw) = true →
      (fs.canonicalize (strTrim raw) = none ∨
       (∃ c, fs.canonicalize (strTrim raw) = some c ∧ fs.metaOf c = none) ∨
       (∃ c m, fs.canonicalize (strTrim raw) = some c ∧
         fs.metaOf c = some m ∧ m.isFile = false)) →
      (normalize_shell_path fs pv (some raw) = .error .shellNotFound ∨
       normalize_shell_path fs pv (some raw) = .error .invalidShellPath)) ∧
    (∀ (fs : Fs) (pv : Option (List String)) (raw c : String) (m : FileMeta),
      strTrim raw ≠ ("") → isAbsolutePath (strTrim raw) = true →
      fs.canonicalize (strTrim raw) = some c → fs.metaOf c = some m →
      m.isFile = true →
      normalize_shell_path fs pv (some raw) = .ok (some c)) ∧
    (∀ (fs : Fs) (dirs : List String) (raw out : String),
      strTrim raw ≠ ("") → isAbsolutePath (strTrim raw) = false →
      normalize_shell_path fs (some dirs) (some raw) = .ok (some out) →
      is_allowed_shell_name (strTrim raw) = true ∧
      ∃ dir ∈ dirs,
        is_executable_file fs (joinPath dir (strTrim raw)) = true ∧
        out = (fs.canonicalize (joinPath dir (strTrim raw))).getD
          (joinPath dir (strTrim raw))) := by
  refine ⟨?_, ?_, ?_, ?_, ?_, ?_⟩
  · intro fs pv raw h
    simp [normalize_shell_path, h]
  · intro fs pv raw h1 h2 h3
    simp [normalize_shell_path, h1, h2, h3]
  · intro fs pv raw h1 h2 h3 h4
    simp [normalize_shell_path, h1, h2, h3, h4]
  · intro fs pv raw h1 h2 hcases
    rcases hcases with hc | ⟨c, hc, hm⟩ | ⟨c, m, hc, hm, hf⟩
    · left
      simp [normalize_shell_path, h1, h2, hc]
    · right
      simp [normalize_shell_path, h1, h2, hc, hm]
    · right
      simp [normalize_shell_path, h1, h2, hc, hm, hf]
  · intro fs pv raw c m h1 h2 hc hm hf
    simp [normalize_shell_path, h1, h2, hc, hm, hf]
  · intro fs dirs raw out h1 h2 hok
    by_cases hallow : is_allowed_shell_name (strTrim raw) = true
    · refine ⟨hallow, ?_⟩
      cases hres : resolve_shell_in_path fs (some dirs) (strTrim raw) with
      | none =>
        rw [normalize_shell_path] at hok
        simp [h1, h2, hallow, hres] at hok
      | some r =>
        rw [normalize_shell_path] at hok
        simp only [h1, h2, hallow, hres] at hok
        simp [resolve_shell_in_path] at hres
        simp at hok
        obtain rfl : r = out := hok
        exact resolve_shell_in_path_with_spec fs (strTrim raw) dirs _ hres
    · exfalso
      rw [normalize_shell_path] at hok
      simp [h1, h2, hallow] at hok

/-- Witness for C6 (amended): a whitespace-only request, a non-allow-listed
bare name, and a successful absolute resolution of an existing regular
file, on concrete filesystems. -/
theorem claim_C6_witness :
    normalize_shell_path trivFs none (some ("   ")) =
      .error .invalidShellPath ∧
    normalize_shell_path trivFs none (some ("rogue-shell")) =
      .error .shellNotAllowed ∧
    normalize_shell_path c6Fs none (some ("/opt/plainfile")) =
      .ok (some ("/opt/plainfile")) :=
  ⟨claim_C6_resolver_case_analysis.1 trivFs none ("   ") rfl,
   claim_C6_resolver_case_analysis.2.1 trivFs none ("rogue-shell")
     (by decide) rfl rfl,
   claim_C6_resolver_case_analysis.2.2.2.2.1 c6Fs none ("/opt/plainfile")
     ("/opt/plainfile") { isFile := true, execBit := false }
     (by decide) rfl rfl rfl rfl⟩

/-- C7 counterexample: the claim asserts the platform default actually
used is always re-validated through the resolver before use, but when no
environment value validates, default_shell returns the literal fallback
"/bin/zsh" with no validation: on the empty filesystem with SHELL unset
the returned default does not pass the resolver at all. -/
theorem claim_C7_counterexample :
    ¬ (∀ (fs : Fs) (pv : Option (List String)) (envShell : Option String),
        ∃ out, normalize_shell_path fs pv
          (some (default_shell fs pv envShell)) = .ok (some out)) := by
  intro hclaim
  obtain ⟨out, hout⟩ := hclaim trivFs none none
  have heval : normalize_shell_path trivFs none
      (some (default_shell trivFs none none)) = .error .shellNotFound := rfl
  rw [heval] at hout
  simp at hout

/-- C7 (amended): when the environment supplies a shell value, the value
actually used is its resolver-validated normalization (so an untrusted
SHELL variable is never used verbatim); in every other case — SHELL unset
or failing validation — the hardcoded fallback "/bin/zsh" is used, without
re-validation. -/
theorem claim_C7_default_shell_validation (fs : Fs)
    (pv : Option (List String)) (envShell : Option String) :
    (∃ s, envShell = some s ∧
      normalize_shell_path fs pv (some s) =
        .ok (some (default_shell fs pv envShell))) ∨
    default_shell fs pv envShell = ("/bin/zsh") := by
  cases envShell with
  | none => right; rfl
  | some s =>
    cases hn : normalize_shell_path fs pv (some s) with
    | error e =>
      right
      simp [default_shell, hn, Except.toOption]
    | ok o =>
      cases o with
      | none =>
        right
        simp [default_shell, hn, Except.toOption]
      | some v =>
        left
        exact ⟨s, rfl, by simp [default_shell, hn, Except.toOption]⟩

/-- C8 counterexample: the claim promises a positive pid on every success,
but SessionHandle::spawn reads the pid with process_id().unwrap_or(0): when
the OS reports no process id the create command still succeeds and returns
pid 0. -/
theorem claim_C8_counterexample :
    ¬ (∀ info : PtySessionInfo,
        (create_session_command
            { cwdIsDir := fun _ => true, openPtyOk := true, spawnOk := true,
              childPid := none }
            trivFs none none ("fresh-id") Registry.empty none ("/") 24 80).1 =
          .ok info → 0 < info.pid) := by
  intro hclaim
  have h0 := hclaim { id := ("fresh-id"), pid := 0 } rfl
  exact absurd h0 (by decide)

/-- C8 (amended): a successful createSession returns exactly the id minted
by the generator for this call — hence distinct from every previously
issued id whenever the generator never repeats a value — together with the
pid reported by the OS for the spawned child; that pid is positive whenever
the OS reports a positive id, and the new entry is registered under the
fresh id.  (When the OS reports no pid, the code falls back to 0.) -/
theorem claim_C8_success_shape (os : OsApi) (fs : Fs)
    (pathVar : Option (List String)) (envShell : Option String)
    (freshId : String) (reg : Registry) (shellReq : Option String)
    (cwd : String) (rows cols : Nat)
    (issued : String → Prop) (hfresh : ¬ issued freshId)
    (p : Nat) (hpid : os.childPid = some p) (hppos : 0 < p)
    (info : PtySessionInfo)
    (hok : (create_session_command os fs pathVar envShell freshId reg shellReq
        cwd rows cols).1 = .ok info) :
    info.id = freshId ∧ info.pid = p ∧ 0 < info.pid ∧ ¬ issued info.id ∧
    (create_session_command os fs pathVar envShell freshId reg shellReq cwd
        rows cols).2.1 freshId =
      some { hasWriter := true, hasMaster := true, alive := true,
             hasReaderThread := true, hasOutputThread := true,
             hasExitThread := true, pid := p } := by
  unfold create_session_command at hok ⊢
  cases hval : validate_dimensions rows cols with
  | error e => rw [hval] at hok; simp at hok
  | ok u =>
    rw [hval] at hok
    cases hsh : normalize_shell_path fs pathVar shellReq with
    | error e => rw [hsh] at hok; simp at hok
    | ok resolved =>
      rw [hsh] at hok
      by_cases hcwd : os.cwdIsDir cwd
      · by_cases hpty : os.openPtyOk
        · by_cases hsp : os.spawnOk
          · simp only [hcwd, hpty, hsp, hpid, not_true, Bool.not_eq_true,
              Option.getD_some] at hok ⊢
            simp at hok
            obtain rfl := hok.symm
            refine ⟨rfl, rfl, hppos, hfresh, ?_⟩
            simp [Registry.insert]
          · simp [hcwd, hpty, hsp] at hok
        · simp [hcwd, hpty] at hok
      · simp [hcwd] at hok

/-- Witness for C8 (amended) with a concrete OS reporting pid 4242. -/
theorem claim_C8_witness :
    ({ id := ("w-id"), pid := 4242 } : PtySessionInfo).id = ("w-id") ∧
    ({ id := ("w-id"), pid := 4242 } : PtySessionInfo).pid = 4242 ∧
    0 < ({ id := ("w-id"), pid := 4242 } : PtySessionInfo).pid ∧
    ¬ False ∧
    (create_session_command
        { cwdIsDir := fun _ => true, openPtyOk := true, spawnOk := true,
          childPid := some 4242 }
        trivFs none none ("w-id") Registry.empty none ("/") 24 80).2.1
        ("w-id") =
      some { hasWriter := true, hasMaster := true, alive := true,
             hasReaderThread := true, hasOutputThread := true,
             hasExitThread := true, pid := 4242 } :=
  claim_C8_success_shape
    { cwdIsDir := fun _ => true, openPtyOk := true, spawnOk := true,
      childPid := some 4242 }
    trivFs none none ("w-id") Registry.empty none ("/") 24 80
    (fun _ => False) (fun h => h) 4242 rfl (by decide)
    { id := ("w-id"), pid := 4242 } rfl

/-- C3 (amended): every batch the output batcher delivers is strictly
smaller than IPC_BATCH_MAX_BYTES plus one reader buffer: the size check
runs before each receive, so accumulation stops as soon as the batch has
reached the cap, but the chunk that crossed the cap has already been
appended, so the cap itself can be exceeded by up to one chunk (at most
16383 bytes over). -/
theorem claim_C3_batch_size_bound (evs : List RecvEvent)
    (hch : ∀ c, RecvEvent.chunk c ∈ evs → c.length ≤ READER_BUF_BYTES) :
    ∀ b ∈ (outputRun none evs).1,
      b.length < IPC_BATCH_MAX_BYTES + READER_BUF_BYTES := by
  refine outputRun_batch_size_bound READER_BUF_BYTES ?_ none evs ?_ hch
  · norm_num [READER_BUF_BYTES, IPC_BATCH_MAX_BYTES]
  · intro b0 h0
    cases h0

/-- Witness for C3 (amended): on the trace delivering the single batch
[7, 8, 9], that batch satisfies the bound. -/
theorem claim_C3_witness :
    ([7, 8, 9] : List Nat).length < IPC_BATCH_MAX_BYTES + READER_BUF_BYTES :=
  claim_C3_batch_size_bound [RecvEvent.chunk [7, 8, 9], RecvEvent.timeout]
    (by
      intro c hc
      simp only [List.mem_cons, List.not_mem_nil, or_false] at hc
      rcases hc with hc | hc
      · cases hc
        decide
      · cases hc)
    [7, 8, 9] (by decide)

/-- The flooding trace refuting the original C3 bound: one 16383-byte
chunk followed by eight 16384-byte chunks, all within one batching window
and all no larger than the reader buffer. -/
def c3Trace : List RecvEvent :=
  RecvEvent.chunk (List.replicate 16383 65) ::
    List.replicate 8 (RecvEvent.chunk (List.replicate 16384 65))

/-- C3 counterexample: on c3Trace the batcher delivers a single batch of
16383 + 8 * 16384 = 147455 raw bytes, exceeding IPC_BATCH_MAX_BYTES =
131072: the check `batch.len() >= IPC_BATCH_MAX_BYTES` runs before the
receive, so the ninth chunk is appended to a 131071-byte batch before the
size is re-examined. -/
theorem claim_C3_counterexample :
    ¬ (∀ b ∈ (outputRun none c3Trace).1, b.length ≤ IPC_BATCH_MAX_BYTES) := by
  intro hall
  have hb := outputRun_len none c3Trace
  have hmap : c3Trace.map RecvEvent.toLen =
      RecvLenEvent.chunk 16383 ::
        List.replicate 8 (RecvLenEvent.chunk 16384) := by
    simp only [c3Trace, List.map_cons, List.map_replicate, RecvEvent.toLen,
      List.length_replicate]
  rw [hmap] at hb
  have hlen : outputRunLen (Option.map List.length (none : Option (List Nat)))
      (RecvLenEvent.chunk 16383 ::
        List.replicate 8 (RecvLenEvent.chunk 16384)) =
      ([147455], none) := by decide
  rw [hlen] at hb
  obtain ⟨hml, -⟩ := Prod.mk.inj hb
  cases hres : (outputRun none c3Trace).1 with
  | nil => rw [hres] at hml; simp at hml
  | cons b bs =>
    rw [hres] at hml
    simp only [List.map_cons] at hml
    obtain ⟨hb1, -⟩ := List.cons.inj hml.symm
    have hmem : b ∈ (outputRun none c3Trace).1 := by
      rw [hres]
      exact List.mem_cons_self _ _
    have hle := hall b hmem
    rw [hb1] at hle
    norm_num [IPC_BATCH_MAX_BYTES] at hle

/-- The operations that can touch the alive flag of a live session after
spawn: the reader thread terminating (session.rs reader_loop tail), the
exit watcher finishing (exit thread tail), kill (its first statement), and
the write and resize calls (which never touch the flag). -/
inductive SessionOp where
  | readerEnd
  | watcherEnd
  | killCall
  | writeCall
  | resizeCall
deriving DecidableEq

/-- The store each operation performs on the alive flag, read off the
three store sites in session.rs: every store writes false; write and
resize store nothing. -/
def aliveStoreOf : SessionOp → Option Bool
  | .readerEnd => some false
  | .watcherEnd => some false
  | .killCall => some false
  | .writeCall => none
  | .resizeCall => none

/-- Effect of one operation on the alive flag. -/
def stepAlive (a : Bool) (op : SessionOp) : Bool :=
  (aliveStoreOf op).getD a

/-- C9: the liveness flag starts true at spawn and is monotone.  Spawn
initializes it to true; every store any operation performs writes false
(so once false it stays false along any operation sequence, and a sequence
ending true must have started true); concretely, kill leaves the flag
false and its step trace holds no store of true, a completed exit watcher
trace holds no store of true, and the reader loop always stores false on
exit. -/
theorem claim_C9_alive_monotone :
    (∀ (os : OsApi) (fs : Fs) (pathVar : Option (List String))
        (envShell : Option String) (sp : Option String) (cwd : String)
        (rows cols : Nat) (s : SessionHandle),
      SessionHandle.spawn os fs pathVar envShell sp cwd rows cols = .ok s →
      s.alive = true) ∧
    (∀ (op : SessionOp) (b : Bool), aliveStoreOf op = some b → b = false) ∧
    (∀ (ops : List SessionOp) (a : Bool),
      List.foldl stepAlive a ops = true → a = true) ∧
    (∀ s : SessionHandle, (SessionHandle.kill s).1.alive = false ∧
      KillStep.storeAlive true ∉ (SessionHandle.kill s).2) ∧
    (∀ (l1 : List PollObs) (l2 : List GraceObs) (evs : List WatcherEvent),
      exitWatcher l1 l2 = some evs →
      WatcherEvent.storeAlive true ∉ evs) ∧
    (∀ (sendOk : Bool) (reads : List ReadResult) (cs : List (List Nat))
        (fin : Bool),
      reader_loop sendOk reads = some (cs, fin) → fin = false) := by
  refine ⟨?_, ?_, ?_, ?_, ?_, ?_⟩
  · intro os fs pathVar envShell sp cwd rows cols s hspawn
    unfold SessionHandle.spawn at hspawn
    by_cases hcwd : os.cwdIsDir cwd
    · by_cases hpty : os.openPtyOk
      · by_cases hsp : os.spawnOk
        · simp only [hcwd, hpty, hsp, not_true, Bool.not_eq_true] at hspawn
          simp at hspawn
          rw [← hspawn]
        · simp [hcwd, hpty, hsp] at hspawn
      · simp [hcwd, hpty] at hspawn
    · simp [hcwd] at hspawn
  · intro op b hst
    cases op <;> simp [aliveStoreOf] at hst <;> simp [hst]
  · intro ops
    induction ops with
    | nil => intro a h; exact h
    | cons op rest ih =>
      intro a h
      have := ih (stepAlive a op) h
      cases op <;> simp [stepAlive, aliveStoreOf] at this ⊢ <;> exact this
  · intro s
    constructor
    · simp [SessionHandle.kill]
    · simp only [SessionHandle.kill]
      intro hmem
      simp only [List.mem_append, List.mem_cons, List.not_mem_nil,
        or_false] at hmem
      rcases hmem with ((((h | h) | h) | h) | h) | h <;>
        exact absurd h (by simp)
  · intro l1 l2 evs hrun hmem
    unfold exitWatcher at hrun
    cases h1 : exitPollLoop l1 with
    | none => rw [h1] at hrun; cases hrun
    | some e1 =>
      rw [h1] at hrun
      cases h2 : exitGraceLoop l2 with
      | none => rw [h2] at hrun; cases hrun
      | some e2 =>
        rw [h2] at hrun
        obtain rfl := (Option.some.inj hrun).symm
        rcases List.mem_append.mp hmem with hm | hm
        · rcases List.mem_append.mp hm with hm | hm
          · cases exitPollLoop_events l1 e1 h1 _ hm
          · rcases exitGraceLoop_events l2 e2 h2 _ hm with h | h <;> cases h
        · simp at hm
  · exact reader_loop_stores_false

/-- Witness for C9 at concrete inputs for each component: a successful
spawn with alive true, the kill store value, a write-only operation
sequence, and a reader trace ending in end-of-stream. -/
theorem claim_C9_witness :
    (({ hasWriter := true, hasMaster := true, alive := true,
        hasReaderThread := true, hasOutputThread := true,
        hasExitThread := true, pid := 9 } : SessionHandle).alive = true) ∧
    (false = false) ∧
    (true = true) ∧
    (false = false) :=
  ⟨claim_C9_alive_monotone.1
      { cwdIsDir := fun _ => true, openPtyOk := true, spawnOk := true,
        childPid := some 9 }
      trivFs none none none ("/") 24 80
      { hasWriter := true, hasMaster := true, alive := true,
        hasReaderThread := true, hasOutputThread := true,
        hasExitThread := true, pid := 9 } rfl,
   claim_C9_alive_monotone.2.1 SessionOp.killCall false rfl,
   claim_C9_alive_monotone.2.2.1 [SessionOp.writeCall] true rfl,
   claim_C9_alive_monotone.2.2.2.2.2 true [ReadResult.eofRead] [] false rfl⟩

/-- Byte-range preservation: every byte of every delivered batch comes
from the initial partial batch or from some chunk of the trace. -/
theorem outputRun_bytes_bound (st : Option (List Nat)) (evs : List RecvEvent)
    (hst : ∀ b0, st = some b0 → ∀ x ∈ b0, x < 256)
    (hch : ∀ c, RecvEvent.chunk c ∈ evs → ∀ x ∈ c, x < 256) :
    ∀ b ∈ (outputRun st evs).1, ∀ x ∈ b, x < 256 := by
  induction evs generalizing st with
  | nil => cases st <;> simp [outputRun]
  | cons e rest ih =>
    have hch1 : ∀ c, RecvEvent.chunk c ∈ rest → ∀ x ∈ c, x < 256 := by
      intro c hc
      exact hch c (List.mem_cons_of_mem _ hc)
    cases st with
    | none =>
      cases e with
      | chunk c =>
        have hcb : ∀ x ∈ c, x < 256 := hch c (List.mem_cons_self _ _)
        by_cases hcap : IPC_BATCH_MAX_BYTES ≤ c.length
        · intro b hb
          simp only [outputRun, if_pos hcap] at hb
          rcases List.mem_cons.mp hb with hb | hb
          · subst hb; exact hcb
          · exact ih none (by intro b0 h0; cases h0) hch1 b hb
        · intro b hb
          simp only [outputRun, if_neg hcap] at hb
          refine ih (some c) ?_ hch1 b hb
          intro b0 h0
          cases h0
          exact hcb
      | timeout =>
        intro b hb
        simp only [outputRun] at hb
        exact ih none (by intro b0 h0; cases h0) hch1 b hb
      | disconnected =>
        intro b hb
        simp [outputRun] at hb
    | some b0 =>
      have hb0 : ∀ x ∈ b0, x < 256 := hst b0 rfl
      cases e with
      | chunk c =>
        have hcb : ∀ x ∈ c, x < 256 := hch c (List.mem_cons_self _ _)
        have happ : ∀ x ∈ b0 ++ c, x < 256 := by
          intro x hx
          rcases List.mem_append.mp hx with hx | hx
          · exact hb0 x hx
          · exact hcb x hx
        by_cases hcap : IPC_BATCH_MAX_BYTES ≤ (b0 ++ c).length
        · intro b hb
          simp only [outputRun, if_pos hcap] at hb
          rcases List.mem_cons.mp hb with hb | hb
          · subst hb; exact happ
          · exact ih none (by intro x hx; cases hx) hch1 b hb
        · intro b hb
          simp only [outputRun, if_neg hcap] at hb
          refine ih (some (b0 ++ c)) ?_ hch1 b hb
          intro x hx
          cases hx
          exact happ
      | timeout =>
        intro b hb
        simp only [outputRun] at hb
        rcases List.mem_cons.mp hb with hb | hb
        · subst hb; exact hb0
        · exact ih none (by intro x hx; cases hx) hch1 b hb
      | disconnected =>
        intro b hb
        simp only [outputRun] at hb
        simp at hb
        subst hb
        exact hb0

/-- C10: each payload string delivered to the output channel is the
standard base64 encoding of the raw batch it carries, so decoding the
delivered payloads recovers exactly the raw batches, and the concatenation
of the raw batches followed by the still-pending bytes is exactly the
concatenation, in arrival order, of the PTY chunks of the trace: the
transport encoding is a lossless, order-preserving round trip from child
output bytes to sink payloads. -/
theorem claim_C10_payload_roundtrip (evs : List RecvEvent)
    (hbytes : ∀ c, RecvEvent.chunk c ∈ evs → ∀ x ∈ c, x < 256) :
    (sentPayloads evs).map b64DecodeStr = (outputRun none evs).1 ∧
    (outputRun none evs).1.flatten ++ ((outputRun none evs).2.getD []) =
      (chunksOf evs).flatten := by
  constructor
  · unfold sentPayloads
    rw [List.map_map]
    have hb := outputRun_bytes_bound none evs (by intro b0 h0; cases h0)
      hbytes
    have hcongr : ∀ b ∈ (outputRun none evs).1,
        (b64DecodeStr ∘ b64EncodeStr) b = b := by
      intro b hmem
      show b64DecodeStr (b64EncodeStr b) = b
      unfold b64DecodeStr b64EncodeStr
      exact b64_roundtrip b (hb b hmem)
    calc (outputRun none evs).1.map (b64DecodeStr ∘ b64EncodeStr)
        = (outputRun none evs).1.map id := List.map_congr_left hcongr
      _ = (outputRun none evs).1 := List.map_id _
  · simpa using outputRun_flatten none evs

/-- Witness for C10 on a concrete two-event trace carrying the bytes of
"Hi". -/
theorem claim_C10_witness :
    (sentPayloads [RecvEvent.chunk [72, 105], RecvEvent.timeout]).map
        b64DecodeStr =
      (outputRun none [RecvEvent.chunk [72, 105], RecvEvent.timeout]).1 ∧
    (outputRun none [RecvEvent.chunk [72, 105], RecvEvent.timeout]).1.flatten ++
        ((outputRun none
            [RecvEvent.chunk [72, 105], RecvEvent.timeout]).2.getD []) =
      (chunksOf [RecvEvent.chunk [72, 105], RecvEvent.timeout]).flatten :=
  claim_C10_payload_roundtrip [RecvEvent.chunk [72, 105], RecvEvent.timeout]
    (by
      intro c hc
      simp only [List.mem_cons, List.not_mem_nil, or_false] at hc
      rcases hc with hc | hc
      · cases hc
        decide
      · cases hc)
